import Mathlib

/-!
Shallow embedding of the kobzar-ccs-ctrl registry/transaction core
(src/lib.rs, src/trans.rs, src/base/mod.rs, src/base/objtrans.rs,
src/base/path.rs) together with theorems settling the spec claims.

Rust machine conventions used throughout:
* `BTreeSet<T>` and `LinkedList<T>` are modelled as `List` in iteration
  order (front to back); `BTreeSet` comparison is the lexicographic
  element-wise comparison Rust derives from `Iterator::cmp`.
* `Box<T>` and `Rc<T>` are modelled as `T` itself (they are transparent
  for `Eq`/`Ord` and for every operation the claims touch).
* A Rust panic (`unimplemented!`, `Option::unwrap` on `None`) is
  modelled as the `none` outcome of an `Option`-returning function.
* Functions of the source that recurse without a structurally
  decreasing argument are given an explicit `fuel` parameter; a result
  of `none` for every fuel means the source computation never produces
  a value (it either panics or recurses forever).
-/

namespace Kobzar

/-- Rust `usize::cmp` / derived integer comparison. -/
def natCmp (a b : Nat) : Ordering :=
  if a < b then Ordering.lt else if a = b then Ordering.eq else Ordering.gt

/-- Rust `String::cmp` (total lexicographic order on strings). -/
def strCmp (a b : String) : Ordering :=
  if a < b then Ordering.lt else if a = b then Ordering.eq else Ordering.gt

/-- `Path` from src/base/path.rs: a package-name node with an optional
link to the previous (towards-root) node.  `Rc<Path>` sharing is
transparent here. -/
inductive Path : Type where
  | mk (name : String) (prev : Option Path)

/-- Field accessor for `Path.name`. -/
def Path.name : Path → String
  | .mk n _ => n

/-- Field accessor for `Path.prev`. -/
def Path.prev : Path → Option Path
  | .mk _ p => p

/-- `Path::new` (src/base/path.rs): root node, no predecessor. -/
def Path.new (name : String) : Path := Path.mk name none

/-- `Path::new_in_path` (src/base/path.rs): node appended after `prev`. -/
def Path.new_in_path (name : String) (prev : Path) : Path :=
  Path.mk name (some prev)

/-- The sequence of nodes yielded by `Path::iter` / `PathIter::next`
(src/base/path.rs): the iterator starts at the node itself and follows
`prev` links, so it yields the leaf first and the root last.  Each
yielded item is the whole sub-path hanging at that node, exactly as the
Rust iterator yields `Rc<Path>` values. -/
def Path.nodes : Path → List Path
  | .mk n none => [Path.mk n none]
  | .mk n (some p) => Path.mk n (some p) :: Path.nodes p

/-- `self.iter().count()` as used by `Ord for Path` and `bi_iter`. -/
def Path.count (p : Path) : Nat := p.nodes.length

/-- `PartialEq for Path` (src/base/path.rs lines 48-63), translated
branch for branch: when both nodes have predecessors the code compares
only the predecessors (`other.prev.unwrap() == self.prev.unwrap()`)
and never compares the names of the two current nodes; names are
compared only when both nodes are roots. -/
def pathEq : Path → Path → Bool
  | .mk _ (some sp), .mk _ (some op) => pathEq op sp
  | .mk sn none, .mk on' none => sn == on'
  | _, _ => false
termination_by a b => sizeOf a + sizeOf b

mutual

/-- `Ord for Path::cmp` (src/base/path.rs lines 67-94), fuelled.
The source first compares the iterator counts; on equal counts it
enters a loop whose first step compares the complete current sub-paths
again through `Rc<Path>::cmp`, i.e. through this very function.  `fuel`
bounds the recursion depth; `none` means the call did not finish within
the given fuel (the source computation panics or recurses forever). -/
def pathCmpFuel : Nat → Path → Path → Option Ordering
  | 0, _, _ => none
  | n + 1, a, b =>
    match natCmp a.count b.count with
    | Ordering.gt => some Ordering.gt
    | Ordering.lt => some Ordering.lt
    | Ordering.eq => pathCmpLoop n a.nodes b.nodes
termination_by n _ _ => (n, 0)

/-- The `loop` inside `Ord for Path::cmp`: `i0`/`i1` are the remaining
iterator items.  An exhausted `i0` hits `next.unwrap()` on `None` (a
panic, modelled `none`); likewise `i1.next().unwrap()`. -/
def pathCmpLoop : Nat → List Path → List Path → Option Ordering
  | _, [], _ => none
  | _, _ :: _, [] => none
  | n, x :: xs, y :: ys =>
    match pathCmpFuel n x y with
    | some Ordering.gt => some Ordering.gt
    | some Ordering.lt => some Ordering.lt
    | some Ordering.eq => pathCmpLoop n xs ys
    | none => none
termination_by n xs _ => (n, xs.length + 1)

end

/-- `Path::full_path` (src/base/path.rs lines 127-157).  The source
pre-computes a capacity (counting one delimiter fewer than the number
of nodes) and then, for every node in iteration order (leaf to root),
appends the node name followed by the delimiter — including after the
last node.  The capacity computation only sizes the allocation and has
no effect on the produced string. -/
def Path.full_path (p : Path) (delim : String) : String :=
  p.nodes.foldl (fun acc nd => acc ++ nd.name ++ delim) ""

/-- `BiPathIter` (src/base/path.rs): the whole path materialised into a
vector (built leaf-to-root, then reversed to root-to-leaf) plus the
front and back cursor positions. -/
structure BiPathIter where
  path  : List Path
  front : Nat
  back  : Nat

/-- `ExactSizeIterator::len` for `BiPathIter`. -/
def BiPathIter.len (it : BiPathIter) : Nat := it.path.length

/-- `Path::bi_iter` (src/base/path.rs lines 168-186): collect the
nodes of `iter()` into a vector, reverse it, start both cursors at 0. -/
def Path.bi_iter (p : Path) : BiPathIter :=
  { path := p.nodes.reverse, front := 0, back := 0 }

/-- `Iterator::next for BiPathIter` (src/base/path.rs lines 228-241),
translated guard for guard: the source returns `None` whenever
`self.len() >= self.front`, otherwise yields `self.path[self.front]`
and advances `front`.  An out-of-range vector index would be a Rust
panic, modelled as `none`; it is unreachable because the guard already
covers every `front ≤ len`. -/
def BiPathIter.next (it : BiPathIter) : Option (Path × BiPathIter) :=
  if it.len ≥ it.front then
    none
  else
    match it.path.get? it.front with
    | some item => some (item, { it with front := it.front + 1 })
    | none => none

/-- `DoubleEndedIterator::next_back for BiPathIter` (src/base/path.rs
lines 252-263), with the same inverted guard as `next`. -/
def BiPathIter.next_back (it : BiPathIter) : Option (Path × BiPathIter) :=
  if it.len ≥ it.back then
    none
  else
    match it.path.get? (it.len - it.back - 1) with
    | some item => some (item, { it with back := it.back + 1 })
    | none => none

/-- `InterfaceVersion` (src/base/mod.rs): major, minor and patch parts.
Rust `u32` values are modelled as `Nat`; every operation below only
compares components, so no overflow arithmetic is involved. -/
structure InterfaceVersion where
  major : Nat
  minor : Nat
  patch : Nat
deriving DecidableEq

/-- `InterfaceVersion::new` (src/base/mod.rs). -/
def InterfaceVersion.new (major minor patch : Nat) : InterfaceVersion :=
  { major, minor, patch }

/-- `Ord for InterfaceVersion::cmp` (src/base/mod.rs lines 343-364),
translated branch for branch. -/
def InterfaceVersion.cmp (a b : InterfaceVersion) : Ordering :=
  if a.major > b.major then Ordering.gt
  else if a.major < b.major then Ordering.lt
  else if a.minor > b.minor then Ordering.gt
  else if a.minor < b.minor then Ordering.lt
  else if a.patch > b.patch then Ordering.gt
  else if a.patch < b.patch then Ordering.lt
  else Ordering.eq

/-- `InterfaceVersion::is_compatible` (src/base/mod.rs lines 397-405),
translated branch for branch: `self` is the implementer, `other` the
required version. -/
def InterfaceVersion.is_compatible (a other : InterfaceVersion) : Bool :=
  if a.major ≠ other.major then false
  else if a.minor < other.minor then false
  else true

/-- `Service` (src/base/mod.rs): a named capability. -/
structure Service where
  name : String
deriving DecidableEq

/-- Derived `Ord for Service` (src/base/mod.rs): compares the single
`name` field. -/
def Service.cmp (a b : Service) : Ordering := strCmp a.name b.name

/-- Derived `Ord` on `BTreeSet<Service>`: lexicographic element-wise
comparison of the ordered contents (Rust `Iterator::cmp`), a shorter
prefix ordering below its extensions. -/
def serviceSetCmp : List Service → List Service → Ordering
  | [], [] => Ordering.eq
  | [], _ :: _ => Ordering.lt
  | _ :: _, [] => Ordering.gt
  | x :: xs, y :: ys =>
    match Service.cmp x y with
    | Ordering.eq => serviceSetCmp xs ys
    | o => o

/-- `Package` (src/base/mod.rs): a path-addressed namespace node. -/
structure Package where
  path : Path

/-- Derived `Ord for Package`: compares the single `path` field via
`Ord for Path`, hence fuelled. -/
def packageCmpFuel (fuel : Nat) (a b : Package) : Option Ordering :=
  pathCmpFuel fuel a.path b.path

/-- `Interface` (src/base/mod.rs), fields in source order: name,
dependency set (`InterfaceDependency.tree`, an ordered set of shared
interface references, modelled as a list in set order), version,
owning package (`Rc<Package>` transparent) and mandated service set. -/
inductive Interface : Type where
  | mk (name : String) (dep : List Interface) (ver : InterfaceVersion)
       (pack : Package) (serv : List Service)

/-- Field accessor for `Interface.name`. -/
def Interface.name : Interface → String
  | .mk n _ _ _ _ => n

/-- Field accessor for `Interface.dep` (the `InterfaceDependency` tree). -/
def Interface.dep : Interface → List Interface
  | .mk _ d _ _ _ => d

/-- Field accessor for `Interface.ver`. -/
def Interface.ver : Interface → InterfaceVersion
  | .mk _ _ v _ _ => v

/-- Field accessor for `Interface.pack`. -/
def Interface.pack : Interface → Package
  | .mk _ _ _ p _ => p

/-- Field accessor for `Interface.serv`. -/
def Interface.serv : Interface → List Service
  | .mk _ _ _ _ s => s

mutual

/-- `Ord for Interface::cmp` (src/base/mod.rs lines 220-260),
translated match for match: name, then version, then package, then
service set, then dependency set, each step short-circuiting.  The
package step goes through `Ord for Path`, so the whole comparison is
fuelled; `none` means no result within the given fuel. -/
def interfaceCmpFuel : Nat → Interface → Interface → Option Ordering
  | 0, _, _ => none
  | fuel + 1, Interface.mk n1 d1 v1 p1 s1, Interface.mk n2 d2 v2 p2 s2 =>
    match strCmp n1 n2 with
    | Ordering.gt => some Ordering.gt
    | Ordering.lt => some Ordering.lt
    | Ordering.eq =>
      match InterfaceVersion.cmp v1 v2 with
      | Ordering.gt => some Ordering.gt
      | Ordering.lt => some Ordering.lt
      | Ordering.eq =>
        match packageCmpFuel fuel p1 p2 with
        | none => none
        | some Ordering.gt => some Ordering.gt
        | some Ordering.lt => some Ordering.lt
        | some Ordering.eq =>
          match serviceSetCmp s1 s2 with
          | Ordering.gt => some Ordering.gt
          | Ordering.lt => some Ordering.lt
          | Ordering.eq => depSetCmpFuel fuel d1 d2
termination_by n _ _ => (n, 0)

/-- Derived `Ord` on `BTreeSet<Rc<Interface>>` (the
`InterfaceDependency` tree): lexicographic element-wise comparison of
the ordered contents through `Interface::cmp`. -/
def depSetCmpFuel : Nat → List Interface → List Interface → Option Ordering
  | _, [], [] => some Ordering.eq
  | _, [], _ :: _ => some Ordering.lt
  | _, _ :: _, [] => some Ordering.gt
  | fuel, x :: xs, y :: ys =>
    match interfaceCmpFuel fuel x y with
    | some Ordering.gt => some Ordering.gt
    | some Ordering.lt => some Ordering.lt
    | some Ordering.eq => depSetCmpFuel fuel xs ys
    | none => none
termination_by n xs _ => (n, xs.length + 1)

end

/-- `Object` (src/base/mod.rs): name, the three visibility-tier
service sets (`BTreeSet<Box<ServiceArch>>`; the trait object is
modelled by its only observable component, the `Service` it returns
from `ServiceArch::service`) and the implemented-interface set.  The
`srvnames` field is a raw-pointer index into the same service entries
(a memory-aliasing cache with no independent content) and has no
counterpart here. -/
structure Object where
  name    : String
  pubsrv  : List Service
  intsrv  : List Service
  privsrv : List Service
  ints    : List Interface

/-- `Visibility` (src/trans.rs / src/base/objtrans.rs). -/
inductive Visibility : Type where
  | Public
  | Internal
  | Private
deriving DecidableEq

/-- `Command` (src/trans.rs lines 31-98); `Box` payloads transparent.
The `objtrans.rs` copy of the enum is identical up to boxing. -/
inductive Command : Type where
  | AddPubSrv (srv : Service)
  | AddIntSrv (srv : Service)
  | AddPrivSrv (srv : Service)
  | RemPubSrv (srv : Service)
  | RemIntSrv (srv : Service)
  | RemPrivSrv (srv : Service)
  | ChgPubSrvVis (srv : Service) (vis : Visibility)
  | ChgIntSrvVis (srv : Service) (vis : Visibility)
  | ChgPrivSrvVis (srv : Service) (vis : Visibility)
  | ChgSrvVis (srv : Service) (vis : Visibility)
  | NewPubSubObj (obj : Object)
  | NewIntSubObj (obj : Object)
  | NewPrivSubObj (obj : Object)
  | RemPubSubObj (obj : Object)
  | RemIntSubObj (obj : Object)
  | RemPrivSubObj (obj : Object)
  | ChgSubObjVis (obj : Object) (vis : Visibility)
  | ChgPubSubObjVis (obj : Object) (vis : Visibility)
  | ChgIntSubObjVis (obj : Object) (vis : Visibility)
  | ChgPrivSubObjVis (obj : Object) (vis : Visibility)
  | ImplInt (i : Interface)
  | UnimplInt (i : Interface)

/-- `TransactionError` (src/trans.rs lines 102-103): an enum with no
variants, hence uninhabited. -/
inductive TransactionError : Type where

/-- `Transaction` (src/trans.rs): the pending command list.  The
`master` field is a borrow of the `Master` façade (src/lib.rs, an
empty struct) that no transaction operation reads; it has no
counterpart here.  `LinkedList<Command>` is modelled as a `List` in
front-to-back order, the order `self.cmds.iter()` visits. -/
structure Transaction where
  cmds : List Command

/-- `Transaction::new` (src/trans.rs): empty command list. -/
def Transaction.new : Transaction := { cmds := [] }

/-- `Transaction::pushcmd` (src/trans.rs lines 235-237):
`self.cmds.push_front(cmd)`, i.e. the new command goes to the FRONT of
the list.  `ObjectTransaction::pushcmd` (src/base/objtrans.rs lines
226-228) is identical. -/
def Transaction.pushcmd (t : Transaction) (cmd : Command) : Transaction :=
  { t with cmds := cmd :: t.cmds }

/-- `Transaction::add_public_service` (src/trans.rs). -/
def Transaction.add_public_service (t : Transaction) (srv : Service) : Transaction :=
  t.pushcmd (Command.AddPubSrv srv)

/-- `Transaction::add_internal_service` (src/trans.rs). -/
def Transaction.add_internal_service (t : Transaction) (srv : Service) : Transaction :=
  t.pushcmd (Command.AddIntSrv srv)

/-- `Transaction::add_private_service` (src/trans.rs). -/
def Transaction.add_private_service (t : Transaction) (srv : Service) : Transaction :=
  t.pushcmd (Command.AddPrivSrv srv)

/-- `Transaction::add_service` (src/trans.rs lines 130-138), translated
arm for arm: the source dispatches `Public` to `add_public_service`
and BOTH `Private` and `Internal` to `add_internal_service`.
`ObjectTransaction::add_service` (src/base/objtrans.rs lines 121-129)
has the same three arms. -/
def Transaction.add_service (t : Transaction) (srv : Service) (vis : Visibility) : Transaction :=
  match vis with
  | Visibility.Public => t.add_public_service srv
  | Visibility.Private => t.add_internal_service srv
  | Visibility.Internal => t.add_internal_service srv

/-- The `for cmd in self.cmds.iter()` loop of
`Transaction::apply_to_object` (src/trans.rs lines 240-253): the
`AddPubSrv` arm has an empty body, every other command hits
`unimplemented!()` (a panic, modelled `none`), and falling off the end
of the loop reaches the trailing `unimplemented!()` as well. -/
def Transaction.applyLoop : List Command → Object → Option (Except TransactionError Unit)
  | [], _ => none
  | Command.AddPubSrv _ :: rest, obj => Transaction.applyLoop rest obj
  | _ :: _, _ => none

/-- `Transaction::apply_to_object` (src/trans.rs lines 240-253):
iterate the command list front to back through `applyLoop`. -/
def Transaction.apply_to_object (t : Transaction) (obj : Object) :
    Option (Except TransactionError Unit) :=
  Transaction.applyLoop t.cmds obj

/-! ### Helper lemmas -/

theorem natCmp_self (x : Nat) : natCmp x x = Ordering.eq := by
  unfold natCmp
  rw [if_neg (lt_irrefl x), if_pos rfl]

theorem strCmp_self (s : String) : strCmp s s = Ordering.eq := by
  unfold strCmp
  rw [if_neg (lt_irrefl s), if_pos rfl]

theorem Path.nodes_head (p : Path) : ∃ t, p.nodes = p :: t := by
  cases p with
  | mk n pr =>
    cases pr with
    | none => exact ⟨[], rfl⟩
    | some q => exact ⟨q.nodes, rfl⟩

/-- On any two paths whose iterator counts agree, the first step of the
`Ord for Path` loop re-compares the complete paths through the very
same `cmp`, so no amount of fuel produces a result: the source
computation recurses forever. -/
theorem pathCmpFuel_eq_none_of_count_eq :
    ∀ (n : Nat) (a b : Path), a.count = b.count → pathCmpFuel n a b = none := by
  intro n
  induction n with
  | zero => intro a b _; simp [pathCmpFuel]
  | succ n ih =>
    intro a b h
    obtain ⟨ta, hta⟩ := a.nodes_head
    obtain ⟨tb, htb⟩ := b.nodes_head
    calc pathCmpFuel (n + 1) a b
        = pathCmpLoop n a.nodes b.nodes := by
          unfold pathCmpFuel
          rw [h, natCmp_self]
      _ = none := by
          rw [hta, htb]
          unfold pathCmpLoop
          rw [ih a b h]

/-! ### Claim theorems -/

/-- C1: the claim says that on any validation failure
`Transaction::apply_to_object` leaves the target object unchanged and
returns the first failing command's error cause.  The code cannot do
either: the loop body is `unimplemented!()` for every command other
than `AddPubSrv`, the code after the loop is `unimplemented!()` as
well, so every call panics instead of returning, and the
`TransactionError` enum has no variants, so no error cause can even be
constructed. -/
theorem apply_to_object_always_panics :
    (∀ (t : Transaction) (obj : Kobzar.Object),
        t.apply_to_object obj = none) ∧
    (TransactionError → False) := by
  constructor
  · intro t obj
    show Transaction.applyLoop t.cmds obj = none
    induction t.cmds with
    | nil => rfl
    | cons c rest ih =>
      cases c <;> simp [Transaction.applyLoop] <;> exact ih
  · intro e
    cases e

/-- C2: the claim says commands are processed by `apply` in the order
the caller appended them.  `Transaction::pushcmd` is
`self.cmds.push_front(cmd)` while `apply_to_object` iterates the list
front to back, so after appending `AddPubSrv s1` and then
`AddIntSrv s2` the list the loop visits is `[AddIntSrv s2,
AddPubSrv s1]` — the reverse of the append order. -/
theorem commands_iterated_in_reverse_append_order :
    ((Transaction.new.add_public_service ⟨"s1"⟩).add_internal_service ⟨"s2"⟩).cmds
      = [Command.AddIntSrv ⟨"s2"⟩, Command.AddPubSrv ⟨"s1"⟩] ∧
    [Command.AddIntSrv ⟨"s2"⟩, Command.AddPubSrv ⟨"s1"⟩]
      ≠ [Command.AddPubSrv ⟨"s1"⟩, Command.AddIntSrv ⟨"s2"⟩] := by
  refine ⟨rfl, ?_⟩
  intro h
  injection h with h1 _
  exact Command.noConfusion h1

/-- C3: `InterfaceVersion::is_compatible` returns `true` exactly when
the majors agree and the implementer minor is at least the required
minor, and the patch components of both versions never influence the
result. -/
theorem is_compatible_iff_major_eq_and_minor_ge :
    ∀ a b : InterfaceVersion,
      (a.is_compatible b = true ↔ (a.major = b.major ∧ b.minor ≤ a.minor)) ∧
      (∀ p q : Nat,
        InterfaceVersion.is_compatible ⟨a.major, a.minor, p⟩ ⟨b.major, b.minor, q⟩
          = a.is_compatible b) := by
  intro a b
  constructor
  · unfold InterfaceVersion.is_compatible
    by_cases h : a.major = b.major <;> by_cases h2 : a.minor < b.minor <;>
      simp [h, h2] <;> omega
  · intro p q
    unfold InterfaceVersion.is_compatible
    rfl

/-- C4: the claim says `full_path(".")` on the path built from the
segments `["org","vendor","lib"]` yields `"org.vendor.lib"` with no
trailing delimiter.  The source loop appends `node.name` AND the
delimiter for every node of the leaf-to-root iteration, so it actually
produces `"lib.vendor.org."` — leaf-to-root order with a trailing
delimiter — contradicting both the claim and the source's own capacity
comment ("in reality it is not placed after last one"). -/
theorem full_path_leaf_to_root_with_trailing_delim :
    Path.full_path
        (Path.new_in_path "lib" (Path.new_in_path "vendor" (Path.new "org"))) "."
      = "lib.vendor.org." ∧
    "lib.vendor.org." ≠ "org.vendor.lib" := by
  constructor
  · simp [Path.full_path, Path.new_in_path, Path.new, Path.nodes, Path.name]
  · decide

/-- C5: the claim says two same-length paths differing in the leaf
name compare unequal.  `PartialEq for Path` only ever compares the
names of the ROOT nodes (whenever both nodes have predecessors it
recurses into the predecessors without looking at the current names),
so the two-segment paths `org -> x` and `org -> y`, whose leaf names
differ, are reported equal. -/
theorem path_eq_ignores_non_root_names :
    pathEq (Path.new_in_path "x" (Path.new "org"))
           (Path.new_in_path "y" (Path.new "org")) = true ∧
    ("x" : String) ≠ "y" := by
  constructor
  · simp [pathEq, Path.new_in_path, Path.new]
  · decide

/-- C6: the claim says `cmp` orders a shorter chain before a longer
one (which the count comparison indeed does, second conjunct) and
decides equal-length chains by the first differing node name.  In
fact, for ANY two chains of equal length — here the one-node paths
`a` and `b`, which the claim orders `Less` by their differing names —
the loop's first step re-compares the whole paths through `cmp`
itself, so the call never returns for any recursion depth. -/
theorem path_cmp_diverges_on_equal_length :
    (∀ fuel : Nat,
        pathCmpFuel fuel (Path.new "a") (Path.new "b") = none) ∧
    pathCmpFuel 1 (Path.new "a") (Path.new_in_path "b" (Path.new "a"))
      = some Ordering.lt := by
  constructor
  · intro fuel
    exact pathCmpFuel_eq_none_of_count_eq fuel _ _ rfl
  · simp [pathCmpFuel, natCmp, Path.count, Path.nodes, Path.new, Path.new_in_path]

/-- C7: the claim says `add_service(s, Private)` appends the same
command as `add_private_service(s)`.  The `Private` arm of
`Transaction::add_service` calls `add_internal_service`, so it appends
`AddIntSrv` where `add_private_service` appends `AddPrivSrv`. -/
theorem add_service_private_targets_internal_tier :
    ((Transaction.new.add_service ⟨"s"⟩ Visibility.Private).cmds
      = [Command.AddIntSrv ⟨"s"⟩]) ∧
    ((Transaction.new.add_private_service ⟨"s"⟩).cmds
      = [Command.AddPrivSrv ⟨"s"⟩]) ∧
    Command.AddIntSrv ⟨"s"⟩ ≠ Command.AddPrivSrv ⟨"s"⟩ := by
  refine ⟨rfl, rfl, ?_⟩
  intro h
  exact Command.noConfusion h

/-- C8: the claim says `iter()` yields the `n` nodes leaf to root
(which holds — for the two-segment path below the iterator sequence is
the leaf node followed by the root node, third conjunct) and that
`bi_iter()` yields exactly `n` elements.  But
`Iterator::next for BiPathIter` returns `None` whenever
`self.len() >= self.front`, which holds immediately at `front = 0`, so
`bi_iter` of EVERY path — including this two-node one — yields no
element at all; `next_back` has the same inverted guard. -/
theorem bi_iter_yields_no_elements :
    (∀ p : Path, BiPathIter.next p.bi_iter = none) ∧
    (∀ p : Path, BiPathIter.next_back p.bi_iter = none) ∧
    Path.nodes (Path.new_in_path "lib" (Path.new "org"))
      = [Path.new_in_path "lib" (Path.new "org"), Path.new "org"] := by
  refine ⟨?_, ?_, ?_⟩
  · intro p
    simp [Path.bi_iter, BiPathIter.next, BiPathIter.len]
  · intro p
    simp [Path.bi_iter, BiPathIter.next_back, BiPathIter.len]
  · simp [Path.nodes, Path.new_in_path, Path.new]

/-- A closed example interface: name `"i"`, no dependencies, version
1.0.0, package at the one-segment path `a`, no mandated services. -/
def exampleInterface : Interface :=
  Interface.mk "i" [] ⟨1, 0, 0⟩ ⟨Path.new "a"⟩ []

/-- C9: the claim says `Ord for Interface` short-circuits through
name, version, package path, service set and dependency set, and that
two interfaces are equal iff all five components match.  The
comparison steps are indeed in that order (the second conjunct shows a
name difference deciding the result with no fuel spent on the rest),
but the package step runs `Ord for Path`, which never returns on
equal-length paths — so comparing an interface with ITSELF never
yields `Equal` (first conjunct): past the name and version steps the
computation disappears into the path comparison for every recursion
depth. -/
theorem interface_cmp_self_diverges :
    (∀ fuel : Nat, interfaceCmpFuel fuel exampleInterface exampleInterface = none) ∧
    interfaceCmpFuel 1
        (Interface.mk "a" [] ⟨1, 0, 0⟩ ⟨Path.new "a"⟩ [])
        (Interface.mk "b" [] ⟨1, 0, 0⟩ ⟨Path.new "a"⟩ [])
      = some Ordering.lt := by
  constructor
  · intro fuel
    cases fuel with
    | zero => simp [interfaceCmpFuel]
    | succ n =>
      have hp : pathCmpFuel n (Path.new "a") (Path.new "a") = none :=
        pathCmpFuel_eq_none_of_count_eq n _ _ rfl
      simp [exampleInterface, interfaceCmpFuel, strCmp_self,
            InterfaceVersion.cmp, packageCmpFuel, hp]
  · have hlt : ("a" : String) < "b" := by
      rw [String.lt_iff_toList_lt]; decide
    have hab : strCmp "a" "b" = Ordering.lt := by
      unfold strCmp
      rw [if_pos hlt]
    simp [interfaceCmpFuel, hab]

/-- C10: the claim says `Path::cmp` is total and in particular returns
`Equal` when a path is compared with itself.  For EVERY path compared
with itself the counts agree, so the loop's first step re-enters `cmp`
on the same pair and the source call never returns (no fuel bound
yields a result); it cannot return `Equal` or any other `Ordering`. -/
theorem path_cmp_self_never_returns :
    ∀ (p : Path) (fuel : Nat), pathCmpFuel fuel p p = none := by
  intro p fuel
  exact pathCmpFuel_eq_none_of_count_eq fuel p p rfl

end Kobzar
